import Mathlib

/-!
Shallow embedding of the catalog-management app's core: the paginated
collection hook `useFirestoreCollection` (reload / loadMore cursor
state machine), the client-side list filters of the categories and
products routes, the catalog page controller (totalPages /
paginatedProducts), and the product create handler.

The hook's six `useState` fields become a `HookState` structure; each
`async` operation becomes a pure state transition parameterized by the
result of its single awaited `getDocs` call.  A deterministic store is
modelled as a list whose document snapshots are `(index, record)`
pairs, with `startAfter(lastDoc)` resuming right after the snapshot's
index.
-/

namespace CatalogApp

/-- Result of one awaited `getDocs` call: the snapshot's docs, or a
thrown error. -/
inductive FetchResult (δ : Type) where
  | ok (docs : List δ)
  | err
  deriving Repr, DecidableEq

/-- The state held by `useFirestoreCollection`: the `data`, `loading`,
`loadingMore`, `error`, `lastDoc` and `hasMore` `useState` cells.
`δ` is the document type; `lastDoc` holds the last visible document
snapshot of the most recent page. -/
structure HookState (δ : Type) where
  data : List δ
  loading : Bool
  loadingMore : Bool
  error : Option String
  lastDoc : Option δ
  hasMore : Bool
  deriving Repr, DecidableEq

/-- The initial values of the six `useState` cells. -/
def initialState (δ : Type) : HookState δ :=
  { data := [], loading := true, loadingMore := false, error := none
    lastDoc := none, hasMore := true }

/-- `processSnapshot`: the fetched records together with
`snapshot.docs[snapshot.docs.length - 1] || null`. -/
def processSnapshot {δ : Type} (docs : List δ) : List δ × Option δ :=
  (docs, docs.getLast?)

/-- The error message set by a failed `reload`. -/
def reloadErrorMsg (collectionName : String) : String :=
  "Failed to load data from \x27" ++ collectionName ++ "\x27."

/-- The error message set by a failed `loadMore`. -/
def loadMoreErrorMsg (collectionName : String) : String :=
  "Failed to load more data from \x27" ++ collectionName ++ "\x27."

/-- The synchronous prefix of `reload()` before `await getDocs`:
`setLoading(true); setError(null); setHasMore(true); setLastDoc(null)`. -/
def reloadPre {δ : Type} (s : HookState δ) : HookState δ :=
  { s with loading := true, error := none, hasMore := true, lastDoc := none }

/-- Completion of `reload()` once `getDocs` settles: the
`try`/`catch`/`finally` of the source. -/
def reloadPost {δ : Type} (collectionName : String) (pageSize : Nat)
    (res : FetchResult δ) (s : HookState δ) : HookState δ :=
  match res with
  | .ok docs =>
      let pr := processSnapshot docs
      { s with
        data := pr.1, lastDoc := pr.2,
        hasMore := pr.1.length == pageSize, loading := false }
  | .err =>
      { s with
        error := some (reloadErrorMsg collectionName),
        data := [], hasMore := false, loading := false }

/-- One complete `reload()` invocation whose `getDocs` resolves to
`res`. -/
def reload {δ : Type} (collectionName : String) (pageSize : Nat)
    (res : FetchResult δ) (s : HookState δ) : HookState δ :=
  reloadPost collectionName pageSize res (reloadPre s)

/-- The guard of `loadMore()`: a store request is issued iff
`!(loadingMore || !hasMore || !lastDoc)`. -/
def loadMoreFetches {δ : Type} (s : HookState δ) : Bool :=
  !(s.loadingMore || !s.hasMore || s.lastDoc.isNone)

/-- The synchronous prefix of the fetching path of `loadMore()`:
`setLoadingMore(true); setError(null)`. -/
def loadMorePre {δ : Type} (s : HookState δ) : HookState δ :=
  { s with loadingMore := true, error := none }

/-- Completion of the fetching path of `loadMore()` once `getDocs`
settles. -/
def loadMorePost {δ : Type} (collectionName : String) (pageSize : Nat)
    (res : FetchResult δ) (s : HookState δ) : HookState δ :=
  match res with
  | .ok docs =>
      let pr := processSnapshot docs
      if pr.1.length > 0 then
        { s with
          data := s.data ++ pr.1, lastDoc := pr.2,
          hasMore := pr.1.length == pageSize, loadingMore := false }
      else
        { s with hasMore := false, loadingMore := false }
  | .err =>
      { s with
        error := some (loadMoreErrorMsg collectionName),
        loadingMore := false }

/-- One complete `loadMore()` invocation: the early-return branch (with
its corrective `setHasMore(false)` when `!lastDoc && hasMore`), or the
fetching path whose `getDocs` resolves to `res`. -/
def loadMore {δ : Type} (collectionName : String) (pageSize : Nat)
    (res : FetchResult δ) (s : HookState δ) : HookState δ :=
  if s.loadingMore || !s.hasMore || s.lastDoc.isNone then
    if s.lastDoc.isNone && s.hasMore then { s with hasMore := false } else s
  else
    loadMorePost collectionName pageSize res (loadMorePre s)

/-! ### Deterministic store semantics

A fixed store is a list `l`; its document snapshots are the pairs of
`l.enum` (store index, record).  `startAfter(lastDoc)` resumes at the
index right after the snapshot; a reload query starts at index 0. -/

/-- The store index at which a query resumes: 0 without a cursor,
`i + 1` after the snapshot at index `i` (`startAfter` semantics). -/
def startAfterIdx {α : Type} (cursor : Option (Nat × α)) : Nat :=
  match cursor with
  | none => 0
  | some c => c.1 + 1

/-- `getDocs(query(ref, startAfter(cursor), limit(pageSize)))` against
the fixed store `l`. -/
def storeFetch {α : Type} (l : List α) (pageSize : Nat)
    (cursor : Option (Nat × α)) : List (Nat × α) :=
  (l.enum.drop (startAfterIdx cursor)).take pageSize

/-- A `reload()` against the fixed store `l`. -/
def reloadDet {α : Type} (l : List α) (p : Nat)
    (s : HookState (Nat × α)) : HookState (Nat × α) :=
  reload "categories" p (.ok (storeFetch l p none)) s

/-- A `loadMore()` against the fixed store `l`: the page fetched (if the
guard lets a fetch happen) starts right after the current cursor. -/
def loadMoreDet {α : Type} (l : List α) (p : Nat)
    (s : HookState (Nat × α)) : HookState (Nat × α) :=
  loadMore "categories" p (.ok (storeFetch l p s.lastDoc)) s

/-- `reload` followed by `k` `loadMore` calls against the fixed store
`l`, page size `p`. -/
def detRun {α : Type} (l : List α) (p k : Nat)
    (s : HookState (Nat × α)) : HookState (Nat × α) :=
  (loadMoreDet l p)^[k] (reloadDet l p s)

/-! ### Trace semantics

For properties quantified over arbitrary call sequences with arbitrary
store responses, a run records the hook state, the log of results of
the store requests actually issued, and — as a ghost variable — the
most recent event that wrote `hasMore`. -/

/-- A call on the hook, together with the result its store request
would resolve to (ignored when the call issues no request). -/
inductive Ev (δ : Type) where
  | reloadCall (res : FetchResult δ)
  | loadMoreCall (res : FetchResult δ)
  deriving Repr, DecidableEq

/-- A run of the hook: the current state, the log of results of store
requests actually issued, and a ghost `lastUpdate`: `none` while no
event has written `hasMore`, otherwise `some b` where `b` records
whether that most recent write came from a successful fetch returning
exactly `pageSize` records. -/
structure Run (δ : Type) where
  state : HookState δ
  fetchLog : List (FetchResult δ)
  lastUpdate : Option Bool
  deriving Repr, DecidableEq

/-- One hook call within a run.  `reload` always issues a store
request; `loadMore` issues one exactly when its guard passes, and its
early-return branch writes `hasMore` only in the corrective
no-cursor-but-`hasMore` case. -/
def stepCall {δ : Type} (c : String) (p : Nat) (e : Ev δ) (r : Run δ) : Run δ :=
  match e with
  | .reloadCall res =>
      { state := reload c p res r.state
        fetchLog := r.fetchLog ++ [res]
        lastUpdate := some (match res with
          | .ok docs => docs.length == p
          | .err => false) }
  | .loadMoreCall res =>
      if loadMoreFetches r.state then
        { state := loadMore c p res r.state
          fetchLog := r.fetchLog ++ [res]
          lastUpdate := match res with
            | .ok docs => some (docs.length == p)
            | .err => r.lastUpdate }
      else
        { state := loadMore c p res r.state
          fetchLog := r.fetchLog
          lastUpdate :=
            if r.state.lastDoc.isNone && r.state.hasMore then some false
            else r.lastUpdate }

/-- A call sequence run from the initial hook state. -/
def runCalls {δ : Type} (c : String) (p : Nat) (es : List (Ev δ)) : Run δ :=
  es.foldl (fun r e => stepCall c p e r) ⟨initialState δ, [], none⟩

/-- Modelled from the spec (for comparison with the code): "`hasMore`
is true if and only if the most recent fetch returned exactly `p`
records (or no fetch has occurred yet)". -/
def specHasMore {δ : Type} (p : Nat) (r : Run δ) : Bool :=
  match r.fetchLog.getLast? with
  | none => true
  | some (.ok docs) => docs.length == p
  | some .err => false

/-! ### List filters and category map (categories / products routes) -/

/-- A category record (`id`, `name`, `description`). -/
structure Category where
  id : String
  name : String
  description : String
  deriving Repr, DecidableEq

/-- A product record; `imageBase64` is optional on loaded records. -/
structure Product where
  id : String
  name : String
  description : String
  price : Int
  categoryId : String
  imageBase64 : Option String
  deriving Repr, DecidableEq

/-- JS `a.includes(b)`: `b` occurs in `a` as a contiguous substring. -/
def stringIncludes (a b : String) : Bool :=
  String.containsSubstr a b.toSubstring

/-- JS `s.trim()`: strips whitespace from both ends (modelled on the
character list so it evaluates by reduction). -/
def jsTrim (s : String) : String :=
  ⟨((s.toList.dropWhile Char.isWhitespace).reverse.dropWhile
      Char.isWhitespace).reverse⟩

/-- `filteredCategories` of the categories route: with a
trim-empty query return `categories` unchanged, otherwise keep the
categories whose lowercased `name`, `description` or `id` contains the
lowercased query. -/
def filteredCategories (searchQuery : String)
    (categories : List Category) : List Category :=
  if (jsTrim searchQuery).isEmpty then categories
  else
    let query := searchQuery.toLower
    categories.filter (fun category =>
      stringIncludes category.name.toLower query
      || stringIncludes category.description.toLower query
      || stringIncludes category.id.toLower query)

/-- `categoryMap.get(categoryId) || ""`: the `Map` built from
`categories.map(cat => [cat.id, cat.name])` (later entries win, hence
the reverse lookup); a missing key yields the empty string. -/
def categoryMapGet (categories : List Category) (categoryId : String) : String :=
  (((categories.map (fun cat => (cat.id, cat.name))).reverse).lookup
    categoryId).getD ""

/-- `filteredProducts` of the products route: with a trim-empty query
return `products` unchanged, otherwise keep the products whose
lowercased `name`, `description`, `id` or resolved category name
contains the lowercased query. -/
def filteredProducts (searchQuery : String) (categories : List Category)
    (products : List Product) : List Product :=
  if (jsTrim searchQuery).isEmpty then products
  else
    let query := searchQuery.toLower
    products.filter (fun product =>
      stringIncludes product.name.toLower query
      || stringIncludes product.description.toLower query
      || stringIncludes product.id.toLower query
      || stringIncludes (categoryMapGet categories product.categoryId).toLower
          query)

/-! ### Catalog page controller -/

/-- The catalog route's fixed page size constant. -/
def PRODUCTS_PER_PAGE : Nat := 8

/-- `totalPages = Math.ceil(filtered.length / pageSize)` (naturals:
`(n + pageSize - 1) / pageSize`). -/
def totalPages {π : Type} (pageSize : Nat) (filtered : List π) : Nat :=
  (filtered.length + pageSize - 1) / pageSize

/-- `paginatedProducts`: the slice
`filtered.slice((currentPage-1)*pageSize, currentPage*pageSize)`. -/
def paginatedProducts {π : Type} (pageSize : Nat) (filtered : List π)
    (currentPage : Nat) : List π :=
  let startIndex := (currentPage - 1) * pageSize
  let endIndex := startIndex + pageSize
  (filtered.drop startIndex).take (endIndex - startIndex)

/-! ### Product create handler -/

/-- The product form state (`currentProduct`), as initialised by
`initialProductState`: `imageBase64` is a plain string there. -/
structure ProductForm where
  id : String
  name : String
  description : String
  price : Int
  categoryId : String
  imageBase64 : String
  deriving Repr, DecidableEq

/-- The payload passed to `addDoc` by `handleAddProduct` (the
`createdAt` timestamp is outside the model). -/
structure ProductWrite where
  name : String
  description : String
  price : Int
  categoryId : String
  imageBase64 : String
  deriving Repr, DecidableEq

/-- `handleAddProduct`: `none` when the handler returns early
(`!currentProduct.name.trim() || !currentProduct.categoryId`),
otherwise the `addDoc` payload.  `Number(price) || 0` is the identity
on an integer price; `imageBase64 || ""` is written out as its
empty-string case split. -/
def handleAddProduct (currentProduct : ProductForm) : Option ProductWrite :=
  if (jsTrim currentProduct.name).isEmpty || currentProduct.categoryId.isEmpty
  then none
  else some
    { name := jsTrim currentProduct.name
      description := jsTrim currentProduct.description
      price := currentProduct.price
      categoryId := currentProduct.categoryId
      imageBase64 :=
        if currentProduct.imageBase64.isEmpty then ""
        else currentProduct.imageBase64 }

/-! ## Lemmas -/

lemma reload_ok {δ : Type} (c : String) (p : Nat) (docs : List δ) (s : HookState δ) :
    reload c p (.ok docs) s =
      { s with
        data := docs, loading := false, error := none,
        lastDoc := docs.getLast?, hasMore := docs.length == p } := rfl

lemma reload_err {δ : Type} (c : String) (p : Nat) (s : HookState δ) :
    reload c p .err s =
      { s with
        data := [], loading := false,
        error := some (reloadErrorMsg c), lastDoc := none, hasMore := false } := rfl

lemma loadMore_of_guard_true {δ : Type} (c : String) (p : Nat) (res : FetchResult δ)
    (s : HookState δ) (h : (s.loadingMore || !s.hasMore || s.lastDoc.isNone) = true) :
    loadMore c p res s =
      if s.lastDoc.isNone && s.hasMore then { s with hasMore := false } else s := by
  unfold loadMore
  rw [h]
  simp

lemma loadMore_of_guard_false {δ : Type} (c : String) (p : Nat) (res : FetchResult δ)
    (s : HookState δ) (h : (s.loadingMore || !s.hasMore || s.lastDoc.isNone) = false) :
    loadMore c p res s = loadMorePost c p res (loadMorePre s) := by
  unfold loadMore
  rw [h]
  rfl

lemma loadMorePost_ok {δ : Type} (c : String) (p : Nat) (docs : List δ)
    (s : HookState δ) :
    loadMorePost c p (.ok docs) s =
      if 0 < docs.length then
        { s with
          data := s.data ++ docs, lastDoc := docs.getLast?,
          hasMore := docs.length == p, loadingMore := false }
      else
        { s with hasMore := false, loadingMore := false } := rfl

lemma loadMorePost_ok_pos {δ : Type} (c : String) (p : Nat) (docs : List δ)
    (s : HookState δ) (h : 0 < docs.length) :
    loadMorePost c p (.ok docs) s =
      { s with
        data := s.data ++ docs, lastDoc := docs.getLast?,
        hasMore := docs.length == p, loadingMore := false } := by
  rw [loadMorePost_ok, if_pos h]

lemma loadMorePost_ok_zero {δ : Type} (c : String) (p : Nat) (docs : List δ)
    (s : HookState δ) (h : docs.length = 0) :
    loadMorePost c p (.ok docs) s =
      { s with hasMore := false, loadingMore := false } := by
  rw [loadMorePost_ok, if_neg (by omega)]

lemma loadMorePost_err {δ : Type} (c : String) (p : Nat) (s : HookState δ) :
    loadMorePost c p .err s =
      { s with
        error := some (loadMoreErrorMsg c), loadingMore := false } := rfl

lemma loadMorePre_def {δ : Type} (s : HookState δ) :
    loadMorePre s = { s with loadingMore := true, error := none } := rfl

lemma min_beq_left (p q : Nat) : (min p q == p) = decide (p ≤ q) := by
  by_cases h : p ≤ q
  · simp [Nat.min_eq_left h, h]
  · have h2 : q < p := Nat.lt_of_not_le h
    simp [Nat.min_eq_right h2.le, h]
    omega

lemma startAfter_last {α : Type} (l : List α) (n : Nat) (h : 0 < min n l.length) :
    ∃ a, (l.enum.take n).getLast? = some (min n l.length - 1, a) := by
  have hlen : (l.enum.take n).length = min n l.length := by
    simp [List.length_take, List.enum_length]
  have hlt : min n l.length - 1 < (l.enum.take n).length := by omega
  have hidx : min n l.length - 1 < l.length := by omega
  refine ⟨l.get ⟨min n l.length - 1, hidx⟩, ?_⟩
  rw [List.getLast?_eq_getElem?, hlen]
  rw [List.getElem?_eq_getElem (by omega)]
  congr 1
  rw [List.getElem_take]
  rw [List.getElem_enum]
  rfl

lemma storeFetch_none {α : Type} (l : List α) (p : Nat) :
    storeFetch l p none = l.enum.take p := by
  unfold storeFetch
  have h0 : startAfterIdx (none : Option (Nat × α)) = 0 := rfl
  rw [h0, List.drop_zero]

lemma storeFetch_some {α : Type} (l : List α) (p i : Nat) (a : α) :
    storeFetch l p (some (i, a)) = (l.enum.drop (i + 1)).take p := rfl

/-- The central invariant of the deterministic run: after `reload` and
`k` `loadMore` calls the loaded data is exactly the prefix of the
store holding the first `(k+1)*p` records, the cursor is its last
element, and `hasMore` records whether every page so far was full. -/
lemma detRun_inv {α : Type} (l : List α) (p : Nat) (hp : 1 ≤ p) (k : Nat)
    (s : HookState (Nat × α)) (hlm : s.loadingMore = false) :
    (detRun l p k s).data = l.enum.take ((k + 1) * p)
    ∧ (detRun l p k s).lastDoc = (detRun l p k s).data.getLast?
    ∧ (detRun l p k s).hasMore = decide ((k + 1) * p ≤ l.length)
    ∧ (detRun l p k s).loadingMore = false := by
  induction k with
  | zero =>
    have h0 : detRun l p 0 s = reloadDet l p s := rfl
    rw [h0]
    unfold reloadDet
    rw [storeFetch_none, reload_ok]
    have hp1 : (0 + 1) * p = p := by ring
    refine ⟨?_, rfl, ?_, hlm⟩
    · show List.take p l.enum = List.take ((0 + 1) * p) l.enum
      rw [hp1]
    · show ((List.take p l.enum).length == p) = decide ((0 + 1) * p ≤ l.length)
      rw [hp1]
      have hlen : (List.take p l.enum).length = min p l.length := by
        simp [List.length_take, List.enum_length]
      rw [hlen, min_beq_left]
  | succ k ih =>
    obtain ⟨hd, hc, hm, hl2⟩ := ih
    have hstep : detRun l p (k + 1) s = loadMoreDet l p (detRun l p k s) :=
      Function.iterate_succ_apply' (loadMoreDet l p) k (reloadDet l p s)
    rw [hstep]
    set t := detRun l p k s with ht
    set n := (k + 1) * p with hn
    have hsucc : (k + 1 + 1) * p = n + p := by rw [hn]; ring
    by_cases hmore : n ≤ l.length
    · have hmt : t.hasMore = true := by rw [hm]; simp [hmore]
      have hn1 : 0 < n := by positivity
      have hmin : 0 < min n l.length := by omega
      obtain ⟨a, hlast⟩ := startAfter_last l n hmin
      have hmin_eq : min n l.length = n := Nat.min_eq_left hmore
      have hcur : t.lastDoc = some (n - 1, a) := by
        rw [hc, hd, hlast, hmin_eq]
      have hF : storeFetch l p t.lastDoc = (l.enum.drop n).take p := by
        rw [hcur, storeFetch_some]
        congr 2
        omega
      have hFlen : ((l.enum.drop n).take p).length = min p (l.length - n) := by
        simp [List.length_take, List.length_drop, List.enum_length]
      have hguard : (t.loadingMore || !t.hasMore || t.lastDoc.isNone) = false := by
        rw [hl2, hmt, hcur]
        rfl
      unfold loadMoreDet
      rw [hF, loadMore_of_guard_false _ _ _ _ hguard]
      by_cases hlt : n < l.length
      · have hFpos : 0 < ((l.enum.drop n).take p).length := by rw [hFlen]; omega
        rw [loadMorePost_ok_pos _ _ _ _ hFpos, loadMorePre_def]
        refine ⟨?_, ?_, ?_, rfl⟩
        · show t.data ++ (l.enum.drop n).take p = _
          rw [hd, hsucc, List.take_add]
        · show ((l.enum.drop n).take p).getLast?
            = (t.data ++ (l.enum.drop n).take p).getLast?
          rw [List.getLast?_append]
          have hne : (l.enum.drop n).take p ≠ [] := List.ne_nil_of_length_pos hFpos
          obtain ⟨x, hx⟩ := Option.isSome_iff_exists.mp (List.getLast?_isSome.mpr hne)
          rw [hx]
          rfl
        · show (((l.enum.drop n).take p).length == p)
            = decide ((k + 1 + 1) * p ≤ l.length)
          rw [hFlen, min_beq_left, hsucc, decide_eq_decide]
          omega
      · have hleq : l.length = n := by omega
        have hF0 : ((l.enum.drop n).take p).length = 0 := by rw [hFlen]; omega
        rw [loadMorePost_ok_zero _ _ _ _ hF0, loadMorePre_def]
        have htake : l.enum.take n = l.enum :=
          List.take_of_length_le (by rw [List.enum_length]; omega)
        refine ⟨?_, ?_, ?_, rfl⟩
        · show t.data = _
          rw [hd, htake, List.take_of_length_le (by rw [List.enum_length]; omega)]
        · show t.lastDoc = t.data.getLast?
          exact hc
        · show false = _
          have hfa : ¬ ((k + 1 + 1) * p ≤ l.length) := by rw [hsucc]; omega
          simp [hfa]
    · have hmf : t.hasMore = false := by rw [hm]; simp [hmore]
      have hguard : (t.loadingMore || !t.hasMore || t.lastDoc.isNone) = true := by
        rw [hmf]
        simp
      unfold loadMoreDet
      rw [loadMore_of_guard_true _ _ _ _ hguard, hmf, Bool.and_false, if_neg (by simp)]
      have htake : l.enum.take n = l.enum :=
        List.take_of_length_le (by rw [List.enum_length]; omega)
      refine ⟨?_, hc, ?_, hl2⟩
      · rw [hd, htake, List.take_of_length_le (by rw [List.enum_length]; omega)]
      · rw [hmf]
        have hfa : ¬ ((k + 1 + 1) * p ≤ l.length) := by rw [hsucc]; omega
        simp [hfa]

lemma loadMoreFetches_true {δ : Type} (s : HookState δ) (h : loadMoreFetches s = true) :
    s.loadingMore = false ∧ s.hasMore = true ∧ s.lastDoc.isNone = false := by
  unfold loadMoreFetches at h
  cases h1 : s.loadingMore <;> cases h2 : s.hasMore <;> cases h3 : s.lastDoc.isNone <;>
    rw [h1, h2, h3] at h <;> simp_all

lemma loadMoreFetches_not {δ : Type} (s : HookState δ) :
    (s.loadingMore || !s.hasMore || s.lastDoc.isNone) = !(loadMoreFetches s) := by
  unfold loadMoreFetches
  simp

lemma stepCall_reload {δ : Type} (c : String) (p : Nat) (res : FetchResult δ) (r : Run δ) :
    stepCall c p (.reloadCall res) r =
      { state := reload c p res r.state
        fetchLog := r.fetchLog ++ [res]
        lastUpdate := some (match res with
          | .ok docs => docs.length == p
          | .err => false) } := rfl

lemma stepCall_loadMore {δ : Type} (c : String) (p : Nat) (res : FetchResult δ)
    (r : Run δ) :
    stepCall c p (.loadMoreCall res) r =
      if loadMoreFetches r.state then
        { state := loadMore c p res r.state
          fetchLog := r.fetchLog ++ [res]
          lastUpdate := match res with
            | .ok docs => some (docs.length == p)
            | .err => r.lastUpdate }
      else
        { state := loadMore c p res r.state
          fetchLog := r.fetchLog
          lastUpdate :=
            if r.state.lastDoc.isNone && r.state.hasMore then some false
            else r.lastUpdate } := rfl

lemma stepCall_loadMore_fetch {δ : Type} (c : String) (p : Nat) (res : FetchResult δ)
    (r : Run δ) (h : loadMoreFetches r.state = true) :
    stepCall c p (.loadMoreCall res) r =
      { state := loadMore c p res r.state
        fetchLog := r.fetchLog ++ [res]
        lastUpdate := match res with
          | .ok docs => some (docs.length == p)
          | .err => r.lastUpdate } := by
  rw [stepCall_loadMore, if_pos h]

lemma stepCall_loadMore_skip {δ : Type} (c : String) (p : Nat) (res : FetchResult δ)
    (r : Run δ) (h : loadMoreFetches r.state = false) :
    stepCall c p (.loadMoreCall res) r =
      { state := loadMore c p res r.state
        fetchLog := r.fetchLog
        lastUpdate :=
          if r.state.lastDoc.isNone && r.state.hasMore then some false
          else r.lastUpdate } := by
  rw [stepCall_loadMore, if_neg (by rw [h]; exact Bool.false_ne_true)]

/-- Preservation of the `hasMore`-tracking invariant by one call. -/
lemma stepCall_inv {δ : Type} (c : String) (p : Nat) (e : Ev δ) (r : Run δ)
    (h1 : r.state.hasMore = r.lastUpdate.getD true)
    (h2 : r.state.lastDoc.isSome = true → r.state.hasMore = true → 1 ≤ p) :
    ((stepCall c p e r).state.hasMore = (stepCall c p e r).lastUpdate.getD true)
    ∧ ((stepCall c p e r).state.lastDoc.isSome = true →
        (stepCall c p e r).state.hasMore = true → 1 ≤ p) := by
  cases e with
  | reloadCall res =>
    rw [stepCall_reload]
    cases res with
    | ok docs =>
      rw [reload_ok]
      refine ⟨rfl, ?_⟩
      intro hs hm
      have hne : docs ≠ [] := by
        intro hnil
        rw [hnil] at hs
        simp at hs
      have hlen : docs.length = p := by
        have := hm
        simpa using this
      have := List.length_pos.mpr hne
      omega
    | err =>
      rw [reload_err]
      refine ⟨rfl, ?_⟩
      intro _ hm
      simp at hm
  | loadMoreCall res =>
    by_cases hg : loadMoreFetches r.state = true
    · obtain ⟨ha, hb, hc2⟩ := loadMoreFetches_true r.state hg
      have hp : 1 ≤ p := by
        apply h2 _ hb
        cases hd : r.state.lastDoc with
        | none => rw [hd] at hc2; simp at hc2
        | some x => simp
      have hcond : (r.state.loadingMore || !r.state.hasMore || r.state.lastDoc.isNone) = false := by
        rw [ha, hb, hc2]
        rfl
      rw [stepCall_loadMore_fetch _ _ _ _ hg]
      cases res with
      | ok docs =>
        rw [loadMore_of_guard_false _ _ _ _ hcond, loadMorePost_ok, loadMorePre_def]
        by_cases hz : 0 < docs.length
        · rw [if_pos hz]
          refine ⟨rfl, ?_⟩
          intro _ hm
          exact hp
        · rw [if_neg hz]
          refine ⟨?_, ?_⟩
          · show false = (docs.length == p)
            have : docs.length = 0 := by omega
            rw [this]
            have : (0 == p) = false := by
              cases p with
              | zero => omega
              | succ q => rfl
            rw [this]
          · intro _ hm
            simp at hm
      | err =>
        rw [loadMore_of_guard_false _ _ _ _ hcond, loadMorePost_err, loadMorePre_def]
        refine ⟨?_, ?_⟩
        · show r.state.hasMore = _
          exact h1
        · intro _ _
          exact hp
    · have hgf : loadMoreFetches r.state = false := by
        cases hq : loadMoreFetches r.state
        · rfl
        · exact absurd hq hg
      have hcond : (r.state.loadingMore || !r.state.hasMore || r.state.lastDoc.isNone) = true := by
        rw [loadMoreFetches_not, hgf]
        rfl
      rw [stepCall_loadMore_skip _ _ _ _ hgf]
      rw [loadMore_of_guard_true _ _ _ _ hcond]
      by_cases hcase : (r.state.lastDoc.isNone && r.state.hasMore) = true
      · rw [if_pos hcase, if_pos hcase]
        refine ⟨rfl, ?_⟩
        intro _ hm
        simp at hm
      · rw [if_neg hcase, if_neg hcase]
        exact ⟨h1, h2⟩

/-- The invariant holds along every run from any invariant-satisfying
start. -/
lemma foldCalls_inv {δ : Type} (c : String) (p : Nat) (es : List (Ev δ)) :
    ∀ (r : Run δ),
      r.state.hasMore = r.lastUpdate.getD true →
      (r.state.lastDoc.isSome = true → r.state.hasMore = true → 1 ≤ p) →
      ((es.foldl (fun r e => stepCall c p e r) r).state.hasMore
          = (es.foldl (fun r e => stepCall c p e r) r).lastUpdate.getD true)
      ∧ ((es.foldl (fun r e => stepCall c p e r) r).state.lastDoc.isSome = true →
          (es.foldl (fun r e => stepCall c p e r) r).state.hasMore = true → 1 ≤ p) := by
  induction es with
  | nil =>
    intro r h1 h2
    exact ⟨h1, h2⟩
  | cons e es ih =>
    intro r h1 h2
    have hstep := stepCall_inv c p e r h1 h2
    simpa using ih (stepCall c p e r) hstep.1 hstep.2

lemma totalPages_nil {π : Type} (P : Nat) (hP : 0 < P) :
    totalPages P ([] : List π) = 0 := by
  unfold totalPages
  simp only [List.length_nil, Nat.zero_add]
  exact Nat.div_eq_of_lt (by omega)

lemma totalPages_succ {π : Type} (P : Nat) (hP : 0 < P) (l : List π)
    (hne : l ≠ []) :
    totalPages P l = totalPages P (l.drop P) + 1 := by
  unfold totalPages
  rw [List.length_drop]
  have hl : 1 ≤ l.length := List.length_pos.mpr hne
  rcases le_or_lt l.length P with hle | hlt
  · have e1 : l.length - P = 0 := by omega
    rw [e1]
    have e2 : (0 + P - 1) / P = 0 := Nat.div_eq_of_lt (by omega)
    rw [e2]
    have e3 : l.length + P - 1 = (l.length - 1) + P := by omega
    rw [e3, Nat.add_div_right _ hP]
    have e4 : (l.length - 1) / P = 0 := Nat.div_eq_of_lt (by omega)
    omega
  · have e3 : l.length + P - 1 = (l.length - 1 - P) + P + P := by omega
    have e4 : l.length - P + P - 1 = (l.length - 1 - P) + P := by omega
    rw [e3, e4, Nat.add_div_right _ hP, Nat.add_div_right _ hP]

lemma paginatedProducts_one {π : Type} (P : Nat) (l : List π) :
    paginatedProducts P l 1 = l.take P := by
  unfold paginatedProducts
  simp

lemma paginatedProducts_shift {π : Type} (P : Nat) (l : List π) (i : Nat) :
    paginatedProducts P l (i + 2) = paginatedProducts P (l.drop P) (i + 1) := by
  unfold paginatedProducts
  simp only [Nat.add_sub_cancel_left, Nat.add_sub_cancel, List.drop_drop]
  congr 1
  have e : i + 2 - 1 = i + 1 := by omega
  rw [e]
  ring_nf

lemma pages_join {π : Type} (P : Nat) (hP : 0 < P) :
    ∀ (n : Nat) (l : List π), totalPages P l = n →
      ((List.range n).map (fun i => paginatedProducts P l (i + 1))).flatten = l := by
  intro n
  induction n with
  | zero =>
    intro l h
    unfold totalPages at h
    have h0 : l.length + P - 1 < P := by
      rcases (Nat.div_eq_zero_iff hP).mp h with h2
      exact h2
    have : l.length = 0 := by omega
    rw [List.length_eq_zero.mp this]
    simp
  | succ n ih =>
    intro l h
    have hne : l ≠ [] := by
      intro he
      rw [he, totalPages_nil P hP] at h
      exact Nat.noConfusion h
    have hrec : totalPages P (l.drop P) = n := by
      have := totalPages_succ P hP l hne
      omega
    rw [List.range_succ_eq_map, List.map_cons, List.flatten_cons, paginatedProducts_one]
    rw [List.map_map]
    have hcongr : (List.range n).map ((fun i => paginatedProducts P l (i + 1)) ∘ Nat.succ)
        = (List.range n).map (fun i => paginatedProducts P (l.drop P) (i + 1)) := by
      apply List.map_congr_left
      intro i _
      show paginatedProducts P l (i + 1 + 1) = _
      exact paginatedProducts_shift P l i
    rw [hcongr, ih (l.drop P) hrec, List.take_append_drop]

/-! ## Claims -/

/-- C1: for every page size `p ≥ 1` and store content, after a
successful `reload`, `k` repeated `loadMore` calls leave `items` equal
to the ordered prefix of the store's records of length
`min ((k+1)*p) l.length` — store-return order, no duplicate, no gap —
`hasMore` is true exactly while every fetched page was full
(equivalently until a fetched page had length `< p`), and once the
store is exhausted a further `loadMore` is a no-op.  Instantiated at
10 records and `pageSize = 4` this yields 4, 8, 10, 10 items with
`hasMore` true, true, false, false. -/
theorem cursor_pagination_accumulates {α : Type} (l : List α) (p k : Nat)
    (s : HookState (Nat × α)) (hp : 1 ≤ p) (hlm : s.loadingMore = false) :
    (detRun l p k s).data = l.enum.take ((k + 1) * p)
    ∧ (detRun l p k s).data.length = min ((k + 1) * p) l.length
    ∧ (detRun l p k s).hasMore = decide ((k + 1) * p ≤ l.length)
    ∧ (l.length < (k + 1) * p →
        loadMoreDet l p (detRun l p k s) = detRun l p k s) := by
  obtain ⟨hd, hc, hm, hl2⟩ := detRun_inv l p hp k s hlm
  refine ⟨hd, ?_, hm, ?_⟩
  · rw [hd]
    simp [List.length_take, List.enum_length]
  · intro hlt
    have hmf : (detRun l p k s).hasMore = false := by
      rw [hm]
      simp only [decide_eq_false_iff_not]
      omega
    have hguard : ((detRun l p k s).loadingMore || !(detRun l p k s).hasMore
        || (detRun l p k s).lastDoc.isNone) = true := by
      rw [hmf]
      simp
    unfold loadMoreDet
    rw [loadMore_of_guard_true _ _ _ _ hguard, hmf, Bool.and_false,
      if_neg (by simp)]

/-- Witness for C1: the spec's concrete scenario (10 store records,
page size 4, two `loadMore` calls after `reload`). -/
theorem cursor_pagination_accumulates_witness :
    1 ≤ 4
    ∧ (detRun (List.range 10) 4 0 (initialState (Nat × Nat))).data.length
        = min ((0 + 1) * 4) (List.range 10).length
    ∧ (detRun (List.range 10) 4 1 (initialState (Nat × Nat))).data.length
        = min ((1 + 1) * 4) (List.range 10).length
    ∧ (detRun (List.range 10) 4 2 (initialState (Nat × Nat))).data.length
        = min ((2 + 1) * 4) (List.range 10).length
    ∧ (detRun (List.range 10) 4 2 (initialState (Nat × Nat))).hasMore
        = decide ((2 + 1) * 4 ≤ (List.range 10).length)
    ∧ ((List.range 10).length < (2 + 1) * 4 →
        loadMoreDet (List.range 10) 4
            (detRun (List.range 10) 4 2 (initialState (Nat × Nat)))
          = detRun (List.range 10) 4 2 (initialState (Nat × Nat))) :=
  ⟨by decide,
   (cursor_pagination_accumulates (List.range 10) 4 0 (initialState _)
     (by decide) rfl).2.1,
   (cursor_pagination_accumulates (List.range 10) 4 1 (initialState _)
     (by decide) rfl).2.1,
   (cursor_pagination_accumulates (List.range 10) 4 2 (initialState _)
     (by decide) rfl).2.1,
   (cursor_pagination_accumulates (List.range 10) 4 2 (initialState _)
     (by decide) rfl).2.2.1,
   (cursor_pagination_accumulates (List.range 10) 4 2 (initialState _)
     (by decide) rfl).2.2.2⟩

/-- C2 counterexample: a `loadMore` call before any `reload` issues no
store request (the fetch log stays empty) yet flips `hasMore` to
false, so "`hasMore` is true iff the most recent fetch returned
exactly `pageSize` records or no fetch has occurred yet" fails: with
no fetch at all the spec reading demands `hasMore = true`. -/
theorem hasMore_spec_counterexample :
    (runCalls "categories" 4
        [Ev.loadMoreCall (FetchResult.ok ([] : List Nat))]).fetchLog = []
    ∧ ¬ ((runCalls "categories" 4
          [Ev.loadMoreCall (FetchResult.ok ([] : List Nat))]).state.hasMore
        = specHasMore 4 (runCalls "categories" 4
          [Ev.loadMoreCall (FetchResult.ok ([] : List Nat))])) :=
  ⟨rfl, by decide⟩

/-- C2 (amended): in every state reachable by any call sequence with
any store responses, `hasMore` is true iff the most recent event that
wrote `hasMore` — a completed `reload`, a `loadMore` whose store
request settled successfully, or the corrective no-cursor `loadMore`
no-op — was a successful fetch returning exactly `pageSize` records,
or no such event has occurred yet; a failed `loadMore` request leaves
`hasMore` untouched. -/
theorem hasMore_tracks_lastUpdate {δ : Type} (c : String) (p : Nat)
    (es : List (Ev δ)) :
    (runCalls c p es).state.hasMore = (runCalls c p es).lastUpdate.getD true :=
  (foldCalls_inv c p es ⟨initialState δ, [], none⟩ rfl
    (by intro h _; simp [initialState] at h)).1

/-- C3: when a cursor is established, `hasMore` holds and no fetch is
in flight, a failed `loadMore` records the error and leaves `items`,
the cursor and `hasMore` exactly as they were, clearing
`loadingMore`. -/
theorem loadMore_failure_preserves {δ : Type} (c : String) (p : Nat)
    (s : HookState δ) (h1 : s.loadingMore = false) (h2 : s.hasMore = true)
    (h3 : s.lastDoc.isNone = false) :
    (loadMore c p .err s).error = some (loadMoreErrorMsg c)
    ∧ (loadMore c p .err s).data = s.data
    ∧ (loadMore c p .err s).lastDoc = s.lastDoc
    ∧ (loadMore c p .err s).hasMore = s.hasMore
    ∧ (loadMore c p .err s).loadingMore = false := by
  have hcond : (s.loadingMore || !s.hasMore || s.lastDoc.isNone) = false := by
    rw [h1, h2, h3]
    rfl
  rw [loadMore_of_guard_false _ _ _ _ hcond, loadMorePost_err, loadMorePre_def]
  exact ⟨rfl, rfl, rfl, rfl, rfl⟩

/-- Witness for C3 at a state with one loaded record and a cursor. -/
theorem loadMore_failure_preserves_witness :
    (loadMore "categories" 4 FetchResult.err
        (⟨[7], false, false, none, some 7, true⟩ : HookState Nat)).error
      = some (loadMoreErrorMsg "categories")
    ∧ (loadMore "categories" 4 FetchResult.err
        (⟨[7], false, false, none, some 7, true⟩ : HookState Nat)).data
      = (⟨[7], false, false, none, some 7, true⟩ : HookState Nat).data
    ∧ (loadMore "categories" 4 FetchResult.err
        (⟨[7], false, false, none, some 7, true⟩ : HookState Nat)).lastDoc
      = (⟨[7], false, false, none, some 7, true⟩ : HookState Nat).lastDoc
    ∧ (loadMore "categories" 4 FetchResult.err
        (⟨[7], false, false, none, some 7, true⟩ : HookState Nat)).hasMore
      = (⟨[7], false, false, none, some 7, true⟩ : HookState Nat).hasMore
    ∧ (loadMore "categories" 4 FetchResult.err
        (⟨[7], false, false, none, some 7, true⟩ : HookState Nat)).loadingMore
      = false :=
  loadMore_failure_preserves "categories" 4 _ rfl rfl rfl

/-- C4: a failed `reload` clears `items`, sets `hasMore` to false,
records the error and leaves the cursor absent; and every `reload`,
success or failure, ends with `loading` cleared. -/
theorem reload_failure_clears {δ : Type} (c : String) (p : Nat)
    (res : FetchResult δ) (s : HookState δ) :
    (reload c p res s).loading = false
    ∧ (reload c p .err s).data = []
    ∧ (reload c p .err s).hasMore = false
    ∧ (reload c p .err s).error = some (reloadErrorMsg c)
    ∧ (reload c p .err s).lastDoc = none := by
  refine ⟨?_, rfl, rfl, rfl, rfl⟩
  cases res <;> rfl

/-- C5: `loadMore` returns early without issuing a store request when
a fetch is in flight, `hasMore` is false or no cursor exists; in the
`hasMore`-but-no-cursor case it additionally flips `hasMore` to false,
still without a store call and leaving `items` unchanged. -/
theorem loadMore_early_return {δ : Type} (c : String) (p : Nat)
    (res : FetchResult δ) (s : HookState δ) :
    ((s.loadingMore = true ∨ s.hasMore = false ∨ s.lastDoc = none) →
      loadMoreFetches s = false
      ∧ loadMore c p res s =
          (if s.lastDoc.isNone && s.hasMore then { s with hasMore := false }
           else s)
      ∧ (loadMore c p res s).data = s.data)
    ∧ (s.hasMore = true → s.lastDoc = none →
      loadMoreFetches s = false
      ∧ loadMore c p res s = { s with hasMore := false }) := by
  constructor
  · intro h
    have hcond : (s.loadingMore || !s.hasMore || s.lastDoc.isNone) = true := by
      rcases h with h | h | h <;> simp [h]
    have hf : loadMoreFetches s = false := by
      unfold loadMoreFetches
      rw [hcond]
      rfl
    refine ⟨hf, loadMore_of_guard_true _ _ _ _ hcond, ?_⟩
    rw [loadMore_of_guard_true _ _ _ _ hcond]
    by_cases h2 : (s.lastDoc.isNone && s.hasMore) = true
    · rw [if_pos h2]
    · rw [if_neg h2]
  · intro hm hc
    have hcond : (s.loadingMore || !s.hasMore || s.lastDoc.isNone) = true := by
      simp [hc]
    have hf : loadMoreFetches s = false := by
      unfold loadMoreFetches
      rw [hcond]
      rfl
    refine ⟨hf, ?_⟩
    rw [loadMore_of_guard_true _ _ _ _ hcond, if_pos (by simp [hc, hm])]

/-- Witness for C5: `loadMore` from the initial state (no cursor yet,
`hasMore` still true) makes no store request and flips `hasMore`. -/
theorem loadMore_early_return_witness :
    loadMoreFetches (initialState Nat) = false
    ∧ loadMore "categories" 4 (FetchResult.ok [5]) (initialState Nat)
        = { initialState Nat with hasMore := false } :=
  (loadMore_early_return "categories" 4 (FetchResult.ok [5])
    (initialState Nat)).2 rfl rfl

/-- C6: every `loadMore` call — fetch with records, empty fetch,
failure or guarded no-op — keeps the previous `items` as a prefix in
order, so the length never decreases between reloads. -/
theorem loadMore_append_only {δ : Type} (c : String) (p : Nat)
    (res : FetchResult δ) (s : HookState δ) :
    s.data <+: (loadMore c p res s).data
    ∧ s.data.length ≤ (loadMore c p res s).data.length := by
  have hpre : s.data <+: (loadMore c p res s).data := by
    by_cases h : (s.loadingMore || !s.hasMore || s.lastDoc.isNone) = true
    · rw [loadMore_of_guard_true _ _ _ _ h]
      by_cases h2 : (s.lastDoc.isNone && s.hasMore) = true
      · rw [if_pos h2]
      · rw [if_neg h2]
    · have h2 : (s.loadingMore || !s.hasMore || s.lastDoc.isNone) = false := by
        cases hx : (s.loadingMore || !s.hasMore || s.lastDoc.isNone)
        · rfl
        · exact absurd hx h
      rw [loadMore_of_guard_false _ _ _ _ h2]
      cases res with
      | ok docs =>
        rw [loadMorePost_ok]
        by_cases h3 : 0 < docs.length
        · rw [if_pos h3]
          exact ⟨docs, rfl⟩
        · rw [if_neg h3]
          exact ⟨[], List.append_nil _⟩
      | err =>
        rw [loadMorePost_err]
        exact ⟨[], List.append_nil _⟩
  exact ⟨hpre, hpre.length_le⟩

/-- C7: for every filtered list and page size `P ≥ 1` the controller
computes `totalPages = ceil(length / P)` — zero records give zero
pages — and concatenating the slices for pages `1..totalPages`
reconstructs the filtered list exactly, each record once and in
order. -/
theorem pagination_round_trip {π : Type} (P : Nat) (l : List π) (hP : 1 ≤ P) :
    totalPages P ([] : List π) = 0
    ∧ ((List.range (totalPages P l)).map
        (fun i => paginatedProducts P l (i + 1))).flatten = l :=
  ⟨totalPages_nil P hP, pages_join P hP (totalPages P l) l rfl⟩

/-- Witness for C7 at the route's page size (8) and ten records. -/
theorem pagination_round_trip_witness :
    1 ≤ PRODUCTS_PER_PAGE
    ∧ (totalPages PRODUCTS_PER_PAGE ([] : List Nat) = 0
      ∧ ((List.range (totalPages PRODUCTS_PER_PAGE (List.range 10))).map
          (fun i => paginatedProducts PRODUCTS_PER_PAGE (List.range 10)
            (i + 1))).flatten = List.range 10) :=
  ⟨by decide,
   pagination_round_trip PRODUCTS_PER_PAGE (List.range 10) (by decide)⟩

/-- C8: both route filters are idempotent — filtering an
already-filtered list with the same query returns it unchanged — and
neutral on a trim-empty (empty or whitespace-only) query, which
returns the loaded list in its original order. -/
theorem filter_idempotent_empty_neutral (q : String) (cats : List Category)
    (prods : List Product) :
    filteredCategories q (filteredCategories q cats) = filteredCategories q cats
    ∧ filteredProducts q cats (filteredProducts q cats prods)
        = filteredProducts q cats prods
    ∧ ((jsTrim q).isEmpty = true →
        filteredCategories q cats = cats
        ∧ filteredProducts q cats prods = prods) := by
  refine ⟨?_, ?_, ?_⟩
  · unfold filteredCategories
    by_cases h : (jsTrim q).isEmpty
    · rw [if_pos h, if_pos h]
    · rw [if_neg h, if_neg h]
      simp only [List.filter_filter, Bool.and_self]
  · unfold filteredProducts
    by_cases h : (jsTrim q).isEmpty
    · rw [if_pos h, if_pos h]
    · rw [if_neg h, if_neg h]
      simp only [List.filter_filter, Bool.and_self]
  · intro h
    unfold filteredCategories filteredProducts
    rw [if_pos h, if_pos h]
    exact ⟨rfl, rfl⟩

/-- Witness for C8: a whitespace-only query leaves concrete category
and product lists untouched. -/
theorem filter_idempotent_empty_neutral_witness :
    (jsTrim "  ").isEmpty = true
    ∧ (filteredCategories "  " [⟨"c1", "Food", "snacks"⟩]
        = [⟨"c1", "Food", "snacks"⟩]
      ∧ filteredProducts "  " [⟨"c1", "Food", "snacks"⟩]
          [⟨"p1", "Widget A", "", 3, "c1", none⟩]
        = [⟨"p1", "Widget A", "", 3, "c1", none⟩]) :=
  ⟨by decide,
   (filter_idempotent_empty_neutral "  " [⟨"c1", "Food", "snacks"⟩]
     [⟨"p1", "Widget A", "", 3, "c1", none⟩]).2.2 (by decide)⟩

/-- C9 counterexample: `handleAddProduct` issues the store write for a
form whose price was never entered (the numeric state coerces an empty
price input to 0, its initial value) — the claimed local rejection on
an empty price does not happen. -/
theorem handleAddProduct_ignores_price :
    ¬ (handleAddProduct ⟨"", "A", "", 0, "c1", ""⟩ = none)
    ∧ handleAddProduct ⟨"", "A", "", 0, "c1", ""⟩
        = some ⟨"A", "", 0, "c1", ""⟩ :=
  ⟨by decide, by decide⟩

/-- C9 (amended): product create validates locally exactly that the
trimmed name is non-empty and a category is selected, rejecting
otherwise without a store call (in particular an empty name never
reaches the store); the price is not inspected. -/
theorem handleAddProduct_validation (f : ProductForm) :
    ((handleAddProduct f).isNone
        = ((jsTrim f.name).isEmpty || f.categoryId.isEmpty))
    ∧ handleAddProduct { f with name := "" } = none := by
  constructor
  · unfold handleAddProduct
    by_cases h : ((jsTrim f.name).isEmpty || f.categoryId.isEmpty) = true
    · rw [if_pos h, h]
      rfl
    · have h' : ((jsTrim f.name).isEmpty || f.categoryId.isEmpty) = false := by
        cases hx : ((jsTrim f.name).isEmpty || f.categoryId.isEmpty)
        · rfl
        · exact absurd hx h
      rw [if_neg h, h']
      rfl
  · unfold handleAddProduct
    rw [if_pos]
    show ((jsTrim "").isEmpty || f.categoryId.isEmpty) = true
    rw [show (jsTrim "").isEmpty = true from by decide]
    exact Bool.true_or _

/-- C10: `reload` always, and `loadMore` whenever its guard lets a
fetch happen, reset the recorded error to `none` before the store
request, so a previous failure's error never survives the start of a
retry. -/
theorem retry_resets_error {δ : Type} (c : String) (p : Nat) (d : List δ)
    (s : HookState δ) :
    (reloadPre s).error = none
    ∧ (loadMorePre s).error = none
    ∧ (reload c p (.ok d) s).error = none
    ∧ (loadMoreFetches s = true → (loadMore c p (.ok d) s).error = none) := by
  refine ⟨rfl, rfl, rfl, ?_⟩
  intro h
  obtain ⟨h1, h2, h3⟩ := loadMoreFetches_true s h
  have hcond : (s.loadingMore || !s.hasMore || s.lastDoc.isNone) = false := by
    rw [h1, h2, h3]
    rfl
  rw [loadMore_of_guard_false _ _ _ _ hcond, loadMorePost_ok]
  by_cases h4 : 0 < d.length
  · rw [if_pos h4]
    rfl
  · rw [if_neg h4]
    rfl

/-- Witness for C10: a state carrying an old error and a cursor; the
retrying `loadMore` ends with no recorded error. -/
theorem retry_resets_error_witness :
    loadMoreFetches (⟨[7], false, false, some "boom", some 7, true⟩
        : HookState Nat) = true
    ∧ (loadMore "categories" 4 (FetchResult.ok [8])
        (⟨[7], false, false, some "boom", some 7, true⟩
          : HookState Nat)).error = none :=
  ⟨rfl,
   (retry_resets_error "categories" 4 [8]
     (⟨[7], false, false, some "boom", some 7, true⟩ : HookState Nat)).2.2.2
     rfl⟩

end CatalogApp

